import Mathlib

/-!
Verification of the ladivic concurrency core (`ldvc_atomic.hpp`, `ldvc_async.hpp`).

The atomic layer is a family of free functions, each of which acquires a
`std::mutex` for its whole duration and performs one primitive operation on a
`std::atomic<T>` value.  Because every operation holds the lock for its entire
body, any concurrent execution is equivalent to some serialization of the
operations; we therefore embed each operation as a pure function on the guarded
value, and a concurrent history as a list of operations applied in its
serialization order.  The guarded type is modelled as a `w`-bit unsigned
machine integer: a `Nat` reduced modulo `2 ^ w`, which is exactly the
arithmetic `std::atomic<T>::fetch_add`/`fetch_sub` are defined to perform.
-/

/-- ldvc_atomic_create: under the lock, `var.store(value, relaxed)`.
The stored argument is a `w`-bit machine value, i.e. the residue of `value`
modulo `2 ^ w`. -/
def ldvc_atomic_create (w : Nat) (_var value : Nat) : Nat :=
  value % 2 ^ w

/-- ldvc_atomic_delete: under the lock, the source stores the
value-initialized default of `T` into `var`.  For the modelled integral `T`
that default is `0`.  The guard itself is not deallocated: the function
yields the guard's next value, never removes the guard. -/
def ldvc_atomic_delete (_w : Nat) (_var : Nat) : Nat :=
  0

/-- ldvc_atomic_inc: under the lock, `var.fetch_add(arg, relaxed)`; the atomic
addition wraps modulo `2 ^ w`. -/
def ldvc_atomic_inc (w : Nat) (var arg : Nat) : Nat :=
  (var + arg) % 2 ^ w

/-- ldvc_atomic_dec: under the lock, `var.fetch_sub(arg, relaxed)`; the atomic
subtraction wraps modulo `2 ^ w`, i.e. it adds the additive complement
`2 ^ w - arg % 2 ^ w`. -/
def ldvc_atomic_dec (w : Nat) (var arg : Nat) : Nat :=
  (var + (2 ^ w - arg % 2 ^ w)) % 2 ^ w

/-- ldvc_atomic_and: under the lock, `var.fetch_and(arg, relaxed)`. -/
def ldvc_atomic_and (w : Nat) (var arg : Nat) : Nat :=
  var &&& (arg % 2 ^ w)

/-- ldvc_atomic_or: under the lock, `var.fetch_or(arg, relaxed)`. -/
def ldvc_atomic_or (w : Nat) (var arg : Nat) : Nat :=
  var ||| (arg % 2 ^ w)

/-- ldvc_atomic_xor: under the lock, `var.fetch_xor(arg, relaxed)`. -/
def ldvc_atomic_xor (w : Nat) (var arg : Nat) : Nat :=
  var ^^^ (arg % 2 ^ w)

/-- ldvc_atomic_exchange: under the lock, `return var.exchange(new_value,
relaxed)`.  Yields the pair (next value of the guard, value returned to the
caller: the previous value of the guard). -/
def ldvc_atomic_exchange (w : Nat) (var new_value : Nat) : Nat × Nat :=
  (new_value % 2 ^ w, var)

/-- ldvc_atomic_load: under the lock, `return var.load(relaxed)`. -/
def ldvc_atomic_load (var : Nat) : Nat :=
  var

/-- ldvc_atomic_store: under the lock, `var.store(new_value, relaxed)`. -/
def ldvc_atomic_store (w : Nat) (_var new_value : Nat) : Nat :=
  new_value % 2 ^ w

/-- One serialized guard operation, one constructor per `ldvc_atomic_*`
function of the header. -/
inductive GuardOp where
  | create (v : Nat)
  | del
  | inc (d : Nat)
  | dec (d : Nat)
  | bAnd (m : Nat)
  | bOr (m : Nat)
  | bXor (m : Nat)
  | exchange (v : Nat)
  | load
  | store (v : Nat)
deriving DecidableEq

/-- Effect of one serialized operation on the guarded value, dispatching to
the embedded `ldvc_atomic_*` function. -/
def GuardOp.apply (w : Nat) : GuardOp → Nat → Nat
  | .create v, s => ldvc_atomic_create w s v
  | .del, s => ldvc_atomic_delete w s
  | .inc d, s => ldvc_atomic_inc w s d
  | .dec d, s => ldvc_atomic_dec w s d
  | .bAnd m, s => ldvc_atomic_and w s m
  | .bOr m, s => ldvc_atomic_or w s m
  | .bXor m, s => ldvc_atomic_xor w s m
  | .exchange v, s => (ldvc_atomic_exchange w s v).1
  | .load, s => ldvc_atomic_load s
  | .store v, s => ldvc_atomic_store w s v

/-- Value an operation returns to its caller (`ldvc_atomic_exchange` and
`ldvc_atomic_load` return `T`; every other function returns `void`). -/
def GuardOp.ret (w : Nat) : GuardOp → Nat → Option Nat
  | .exchange v, s => some (ldvc_atomic_exchange w s v).2
  | .load, s => some (ldvc_atomic_load s)
  | _, _ => none

/-- Caller-observable outcome of one serialized call: the guard's next value
and the returned value, if any.  There is no error component: none of the
`ldvc_atomic_*` bodies has an error path. -/
def guardCall (w : Nat) (op : GuardOp) (s : Nat) : Nat × Option Nat :=
  (op.apply w s, op.ret w s)

/-- Run a serialized history of guard operations from initial value `s`. -/
def runOps (w : Nat) (ops : List GuardOp) (s : Nat) : Nat :=
  ops.foldl (fun st op => op.apply w st) s

/-- The value written by an operation when it is one of the three
value-setting operations (`create` / `store` / `exchange`). -/
def GuardOp.setsTo : GuardOp → Option Nat
  | .create v => some v
  | .store v => some v
  | .exchange v => some v
  | _ => none

/-!
Embedding of `ldvc_async.hpp`.

A `std::promise` / `std::future` pair shares a one-shot slot.  `set_value` and
`set_exception` fill the slot when it is empty; on an already-satisfied
promise they throw `std::future_error(promise_already_satisfied)`, which we
embed as an `Except.error`.  `future::get` blocks until the slot is filled and
then yields the stored value or rethrows the stored exception; we model the
resolved read, with `none` standing for a read that would block forever.
-/

/-- A resolved one-shot outcome: a stored value or a stored exception. -/
inductive Outcome (ε ρ : Type) where
  | value (r : ρ)
  | fail (e : ε)
deriving DecidableEq

/-- Shared state of a promise/future pair: the one-shot result slot. -/
structure SharedState (ε ρ : Type) where
  slot : Option (Outcome ε ρ)
deriving DecidableEq

/-- Failure raised by `std::promise` itself when its contract is violated. -/
inductive FutureError where
  | promiseAlreadySatisfied
deriving DecidableEq

/-- promise::set_value: store the value if the slot is empty; throw
`std::future_error(promise_already_satisfied)` otherwise. -/
def promise_set_value {ε ρ : Type} (p : SharedState ε ρ) (r : ρ) :
    Except FutureError (SharedState ε ρ) :=
  match p.slot with
  | none => .ok ⟨some (.value r)⟩
  | some _ => .error .promiseAlreadySatisfied

/-- promise::set_exception: store the exception if the slot is empty; throw
`std::future_error(promise_already_satisfied)` otherwise. -/
def promise_set_exception {ε ρ : Type} (p : SharedState ε ρ) (e : ε) :
    Except FutureError (SharedState ε ρ) :=
  match p.slot with
  | none => .ok ⟨some (.fail e)⟩
  | some _ => .error .promiseAlreadySatisfied

/-- future::get on the shared state: the stored value, or the rethrown stored
exception; `none` when the slot is still empty (the call would block). -/
def future_get {ε ρ : Type} (p : SharedState ε ρ) : Option (Except ε ρ) :=
  match p.slot with
  | none => none
  | some (.value r) => some (.ok r)
  | some (.fail e) => some (.error e)

/-- A callable is modelled by its evaluation: applied to its bound argument it
either returns a value (`Except.ok`) or raises (`Except.error`). -/
def packaged_task_run {α ε ρ : Type} (f : α → Except ε ρ) (a : α) :
    SharedState ε ρ :=
  match f a with
  | .ok r => ⟨some (.value r)⟩
  | .error e => ⟨some (.fail e)⟩

/-- ldvc_async_execute: wraps `bind(f, args...)` in a `std::packaged_task`,
detaches a thread running the task, and returns the task's future.  The
packaged task stores `f`'s return value, or the exception `f` raised, into
the shared state; this definition is that shared state once the detached
worker has run. -/
def ldvc_async_execute {α ε ρ : Type} (f : α → Except ε ρ) (a : α) :
    SharedState ε ρ :=
  packaged_task_run f a

/-- Task-level failures of the timeout construct: the callable raised, or the
timer thread stored `std::runtime_error("Timeout")`. -/
inductive TaskError (ε : Type) where
  | panicked (e : ε)
  | timedOut
deriving DecidableEq

/-- Worker thread body of ldvc_async_execute_with_timeout, as written in the
source: run `f(args...)` discarding its result; on an exception, store it via
`promise.set_exception` and return; otherwise call `promise.set_value()` with
NO argument.  The promise value type is therefore `Unit`: the call
`promise.set_value()` is well-formed only when the declared result type is
`void`, and `f`'s return value is never transmitted. -/
def timeout_worker {α ε ρ : Type} (f : α → Except ε ρ) (a : α)
    (p : SharedState (TaskError ε) Unit) :
    Except FutureError (SharedState (TaskError ε) Unit) :=
  match f a with
  | .ok _r => promise_set_value p ()
  | .error e => promise_set_exception p (.panicked e)

/-- Timer thread body of ldvc_async_execute_with_timeout, as written in the
source: sleep for the timeout duration, then unconditionally call
`promise.set_exception(make_exception_ptr(runtime_error("Timeout")))` —
there is no check whether the promise is already satisfied. -/
def timeout_timer {ε : Type} (p : SharedState (TaskError ε) Unit) :
    Except FutureError (SharedState (TaskError ε) Unit) :=
  promise_set_exception p .timedOut

/-!
Embedding of `ldvc_async_execute_with_delay`.

The source launches `std::async(launch::async, [=] called lambda)` whose body
is: `sleep_for(delay); return f(args...);`.  We model wall-clock time as a
`Nat` and record, for a call submitted at `submitTime` with the given `delay`
whose callable takes `fDuration` to run, when each phase of that lambda
happens.  `is_ready` is the non-blocking readiness query on the returned
future.
-/

/-- The handle returned by ldvc_async_execute_with_delay, with the timing data
of its underlying thread. -/
structure DelayedHandle where
  submitTime : Nat
  delay : Nat
  fDuration : Nat
deriving DecidableEq

/-- ldvc_async_execute_with_delay: submit at `submitTime` a callable taking
`fDuration`, to run after `delay`. -/
def ldvc_async_execute_with_delay (submitTime delay fDuration : Nat) :
    DelayedHandle :=
  ⟨submitTime, delay, fDuration⟩

/-- Time at which the spawned lambda finishes `sleep_for(delay)` and starts
`f`: the sleep comes first in the lambda body, so `f` starts exactly `delay`
after submission. -/
def DelayedHandle.fStart (h : DelayedHandle) : Nat :=
  h.submitTime + h.delay

/-- Time at which the lambda returns and the future becomes ready: `f` starts
at `fStart` and runs for `fDuration`. -/
def DelayedHandle.readyAt (h : DelayedHandle) : Nat :=
  h.fStart + h.fDuration

/-- Non-blocking readiness query on the handle at time `now`. -/
def DelayedHandle.is_ready (h : DelayedHandle) (now : Nat) : Bool :=
  h.readyAt ≤ now

/-- Running the empty history leaves the guard unchanged; running a cons
applies the head operation first. -/
theorem runOps_cons (w : Nat) (op : GuardOp) (t : List GuardOp) (s : Nat) :
    runOps w (op :: t) s = runOps w t (op.apply w s) :=
  rfl

/-- C4 counterexample: in the serialized history `[create 5, inc 1]` the most
recent prior `store`/`exchange`/`create` set the value `5`, yet the subsequent
`exchange 9` returns the current value `6` (the increment intervened), so the
original claim fails at this input. -/
theorem C4_counterexample_intervening_inc :
    GuardOp.setsTo (GuardOp.create 5) = some 5 ∧
    (ldvc_atomic_exchange 8 (runOps 8 [GuardOp.create 5, GuardOp.inc 1] 0) 9).2 = 6 ∧
    (6 : Nat) ≠ 5 := by
  decide

/-- C4 (amended): `exchange(v)` stores the `w`-bit value of `v` and returns
the guard's current value — the value produced by the immediately preceding
serialized operation; in particular, whenever the immediately preceding
operation is a `store`/`exchange`/`create` that set `u` (no other mutating
operation intervening), `exchange(v)` returns exactly the `w`-bit value of
`u`. -/
theorem C4_exchange_returns_last_written (w : Nat) (h₀ : List GuardOp)
    (op : GuardOp) (s₀ u v : Nat) (hset : op.setsTo = some u) :
    (ldvc_atomic_exchange w (runOps w (h₀ ++ [op]) s₀) v).1 = v % 2 ^ w ∧
    (ldvc_atomic_exchange w (runOps w (h₀ ++ [op]) s₀) v).2 = u % 2 ^ w := by
  have hrun : runOps w (h₀ ++ [op]) s₀ = op.apply w (runOps w h₀ s₀) := by
    simp [runOps, List.foldl_append]
  cases op with
  | create x =>
    simp only [GuardOp.setsTo, Option.some.injEq] at hset
    subst hset
    simp [hrun, GuardOp.apply, ldvc_atomic_create, ldvc_atomic_exchange]
  | store x =>
    simp only [GuardOp.setsTo, Option.some.injEq] at hset
    subst hset
    simp [hrun, GuardOp.apply, ldvc_atomic_store, ldvc_atomic_exchange]
  | exchange x =>
    simp only [GuardOp.setsTo, Option.some.injEq] at hset
    subst hset
    simp [hrun, GuardOp.apply, ldvc_atomic_exchange]
  | del => simp [GuardOp.setsTo] at hset
  | inc d => simp [GuardOp.setsTo] at hset
  | dec d => simp [GuardOp.setsTo] at hset
  | bAnd m => simp [GuardOp.setsTo] at hset
  | bOr m => simp [GuardOp.setsTo] at hset
  | bXor m => simp [GuardOp.setsTo] at hset
  | load => simp [GuardOp.setsTo] at hset

/-- Witness for C4 (amended) at a concrete history. -/
theorem C4_exchange_returns_last_written_witness :
    GuardOp.setsTo (GuardOp.store 7) = some 7 ∧
    ((ldvc_atomic_exchange 8
        (runOps 8 ([GuardOp.create 3, GuardOp.inc 2] ++ [GuardOp.store 7]) 0) 9).1 =
        9 % 2 ^ 8 ∧
     (ldvc_atomic_exchange 8
        (runOps 8 ([GuardOp.create 3, GuardOp.inc 2] ++ [GuardOp.store 7]) 0) 9).2 =
        7 % 2 ^ 8) :=
  ⟨by decide,
   C4_exchange_returns_last_written 8 [GuardOp.create 3, GuardOp.inc 2]
     (GuardOp.store 7) 0 7 9 (by decide)⟩

/-- C8: no guard operation fails observably: `load` returns exactly the
current guarded value (leaving it unchanged), and every operation applied to
every guard state yields a defined (value, return) outcome — the embedded
operations, like the source bodies, have no error path at all. -/
theorem C8_guard_ops_never_fail (w s : Nat) :
    guardCall w GuardOp.load s = (s, some s) ∧
    ∀ op : GuardOp, ∃ r : Nat × Option Nat, guardCall w op s = r :=
  ⟨rfl, fun _ => ⟨_, rfl⟩⟩

/-- C9: `reset` (ldvc_atomic_delete) leaves the guard holding exactly the
value type's default `0`, returns nothing to the caller, and yields a guard
state rather than deallocating the guard. -/
theorem C9_delete_resets_to_default (w s : Nat) :
    ldvc_atomic_delete w s = 0 ∧ guardCall w GuardOp.del s = (0, none) :=
  ⟨rfl, rfl⟩

/-- C10: ldvc_atomic_create and ldvc_atomic_store are behaviorally identical:
for every prior guard value and every argument, both replace the guarded
value with the argument and return nothing, so `create` on an
already-initialized guard has exactly the effect of `store`. -/
theorem C10_create_equals_store (w s v : Nat) :
    ldvc_atomic_create w s v = ldvc_atomic_store w s v ∧
    guardCall w (GuardOp.create v) s = guardCall w (GuardOp.store v) s :=
  ⟨rfl, rfl⟩

/-- An increment/decrement call: `true` tags `ldvc_atomic_inc`, `false` tags
`ldvc_atomic_dec`, each with its delta. -/
def incDecOp : Bool × Nat → GuardOp
  | (true, d) => .inc d
  | (false, d) => .dec d

/-- The nonnegative residue each inc/dec call adds modulo `2 ^ w`: an
increment adds its delta, a decrement adds the additive complement of its
delta. -/
def incDecKey (w : Nat) : Bool × Nat → Nat
  | (true, d) => d
  | (false, d) => 2 ^ w - d % 2 ^ w

/-- The signed delta of an increment/decrement call. -/
def signedDelta : Bool × Nat → Int
  | (true, d) => (d : Int)
  | (false, d) => -(d : Int)

/-- Running a serialized list of increment/decrement calls adds the sum of
their residues, modulo `2 ^ w`. -/
theorem runOps_incDec (w : Nat) (l : List (Bool × Nat)) (x : Nat) :
    runOps w (l.map incDecOp) (x % 2 ^ w) =
      (x + (l.map (incDecKey w)).sum) % 2 ^ w := by
  induction l generalizing x with
  | nil => simp [runOps]
  | cons p t ih =>
    obtain ⟨b, d⟩ := p
    cases b with
    | true =>
      have hstep : GuardOp.apply w (incDecOp (true, d)) (x % 2 ^ w) =
          (x + d) % 2 ^ w := by
        simp [incDecOp, GuardOp.apply, ldvc_atomic_inc, Nat.mod_add_mod]
      rw [List.map_cons, runOps_cons, hstep, ih (x + d)]
      simp [incDecKey, Nat.add_assoc]
    | false =>
      have hstep : GuardOp.apply w (incDecOp (false, d)) (x % 2 ^ w) =
          (x + (2 ^ w - d % 2 ^ w)) % 2 ^ w := by
        simp [incDecOp, GuardOp.apply, ldvc_atomic_dec, Nat.mod_add_mod]
      rw [List.map_cons, runOps_cons, hstep, ih (x + (2 ^ w - d % 2 ^ w))]
      simp [incDecKey, Nat.add_assoc]

/-- Starting from `0`, a serialized list of increment/decrement calls leaves
the guard at the sum of their residues modulo `2 ^ w`. -/
theorem runOps_incDec_zero (w : Nat) (l : List (Bool × Nat)) :
    runOps w (l.map incDecOp) 0 = (l.map (incDecKey w)).sum % 2 ^ w := by
  have h := runOps_incDec w l 0
  simpa using h

/-- The sum of the nonnegative residues is congruent, modulo `2 ^ w`, to the
sum of the signed deltas. -/
theorem incDecKey_sum_modeq (w : Nat) (l : List (Bool × Nat)) :
    ((l.map (incDecKey w)).sum : Int) ≡ (l.map signedDelta).sum [ZMOD (2 ^ w : Int)] := by
  induction l with
  | nil => rfl
  | cons p t ih =>
    obtain ⟨b, d⟩ := p
    have hd : (d : Int) % (2 ^ w : Int) % (2 ^ w : Int) = (d : Int) % (2 ^ w : Int) :=
      Int.emod_emod_of_dvd _ dvd_rfl
    cases b with
    | true =>
      have hhead : ((incDecKey w (true, d) : Nat) : Int) ≡ signedDelta (true, d)
          [ZMOD (2 ^ w : Int)] := by
        simp [incDecKey, signedDelta, Int.ModEq]
      simp only [List.map_cons, List.sum_cons, Nat.cast_add]
      exact hhead.add ih
    | false =>
      have hlt : d % 2 ^ w < 2 ^ w := Nat.mod_lt _ (Nat.pos_pow_of_pos w (by omega))
      have hcast : ((2 ^ w - d % 2 ^ w : Nat) : Int) =
          (2 ^ w : Int) - ((d % 2 ^ w : Nat) : Int) := by
        push_cast [Nat.cast_sub (Nat.le_of_lt hlt)]
        ring
      have hzero : (2 ^ w : Int) ≡ 0 [ZMOD (2 ^ w : Int)] := by
        simp [Int.ModEq]
      have hmod : ((d % 2 ^ w : Nat) : Int) ≡ (d : Int) [ZMOD (2 ^ w : Int)] := by
        rw [Int.ModEq, Int.natCast_mod]
        simp only [Nat.cast_pow, Nat.cast_ofNat]
        exact hd
      have hhead : ((incDecKey w (false, d) : Nat) : Int) ≡ signedDelta (false, d)
          [ZMOD (2 ^ w : Int)] := by
        have := hzero.sub hmod
        simpa [incDecKey, signedDelta, hcast] using this
      simp only [List.map_cons, List.sum_cons, Nat.cast_add]
      exact hhead.add ih

/-- C5: for every finite multiset of increment/decrement calls with arbitrary
deltas applied to one guard with initial value 0, every serialization order
yields the same final value, and that value is the sum of all signed deltas
computed with `w`-bit wrapping semantics (the canonical residue of the signed
sum modulo `2 ^ w`). -/
theorem C5_incdec_serialized_sum (w : Nat) (l₁ l₂ : List (Bool × Nat))
    (hp : l₁.Perm l₂) :
    runOps w (l₁.map incDecOp) 0 = runOps w (l₂.map incDecOp) 0 ∧
    (runOps w (l₁.map incDecOp) 0 : Int) =
      (l₁.map signedDelta).sum % (2 ^ w : Int) := by
  constructor
  · rw [runOps_incDec_zero, runOps_incDec_zero, (hp.map (incDecKey w)).sum_eq]
  · rw [runOps_incDec_zero]
    have h := incDecKey_sum_modeq w l₁
    rw [Int.ModEq] at h
    simp only [Int.natCast_mod, Nat.cast_pow, Nat.cast_ofNat]
    exact h

/-- Witness for C5 at a concrete pair of interleavings. -/
theorem C5_incdec_serialized_sum_witness :
    ([(true, 5), (false, 3)] : List (Bool × Nat)).Perm [(false, 3), (true, 5)] ∧
    (runOps 8 ([(true, 5), (false, 3)].map incDecOp) 0 =
       runOps 8 ([(false, 3), (true, 5)].map incDecOp) 0 ∧
     (runOps 8 ([(true, 5), (false, 3)].map incDecOp) 0 : Int) =
       ([(true, 5), (false, 3)].map signedDelta).sum % (2 ^ 8 : Int)) :=
  ⟨by decide, C5_incdec_serialized_sum 8 _ _ (by decide)⟩

/-- A left fold by a self-commuting action is invariant under permutation of
the operation list. -/
theorem foldl_perm_of_comm {f : Nat → Nat → Nat}
    (hc : ∀ s a b : Nat, f (f s a) b = f (f s b) a) {l₁ l₂ : List Nat}
    (hp : l₁.Perm l₂) : ∀ s : Nat, l₁.foldl f s = l₂.foldl f s := by
  induction hp with
  | nil => intro s; rfl
  | cons x _ ih => intro s; simpa using ih (f s x)
  | swap x y l => intro s; simp only [List.foldl_cons]; rw [hc s y x]
  | trans _ _ ih₁ ih₂ => intro s; rw [ih₁ s, ih₂ s]

/-- C6 counterexample: the two-element multiset consisting of one
`bitwise_and 0` and one `bitwise_or 1`, applied to one guard holding `1`, ends
at different values in its two application orders, so a mixed multiset of
AND/OR/XOR operations is not order-independent. -/
theorem C6_mixed_multiset_order_dependent :
    ([GuardOp.bAnd 0, GuardOp.bOr 1] : List GuardOp).Perm
      [GuardOp.bOr 1, GuardOp.bAnd 0] ∧
    runOps 8 [GuardOp.bAnd 0, GuardOp.bOr 1] 1 ≠
      runOps 8 [GuardOp.bOr 1, GuardOp.bAnd 0] 1 := by
  decide

/-- C6 (amended): for a fixed multiset of bitwise operations all of one kind —
all `bitwise_and`, all `bitwise_or`, or all `bitwise_xor` — the final guard
value is the same for every application order; mixing bitwise operations with
`store` (or `exchange`), however, is not order-independent, witnessed by
`store 1` against `bitwise_and 0`. -/
theorem C6_homogeneous_bitwise_commutes (w s : Nat) (l₁ l₂ : List Nat)
    (hp : l₁.Perm l₂) :
    (runOps w (l₁.map GuardOp.bAnd) s = runOps w (l₂.map GuardOp.bAnd) s ∧
     runOps w (l₁.map GuardOp.bOr) s = runOps w (l₂.map GuardOp.bOr) s ∧
     runOps w (l₁.map GuardOp.bXor) s = runOps w (l₂.map GuardOp.bXor) s) ∧
    runOps 8 [GuardOp.store 1, GuardOp.bAnd 0] 1 ≠
      runOps 8 [GuardOp.bAnd 0, GuardOp.store 1] 1 := by
  refine ⟨⟨?_, ?_, ?_⟩, by decide⟩
  · simp only [runOps, List.foldl_map]
    exact foldl_perm_of_comm
      (fun s a b => by
        simp only [GuardOp.apply, ldvc_atomic_and]
        rw [Nat.land_assoc, Nat.land_comm (a % 2 ^ w), ← Nat.land_assoc])
      hp s
  · simp only [runOps, List.foldl_map]
    exact foldl_perm_of_comm
      (fun s a b => by
        simp only [GuardOp.apply, ldvc_atomic_or]
        rw [Nat.lor_assoc, Nat.lor_comm (a % 2 ^ w), ← Nat.lor_assoc])
      hp s
  · simp only [runOps, List.foldl_map]
    exact foldl_perm_of_comm
      (fun s a b => by
        simp only [GuardOp.apply, ldvc_atomic_xor]
        rw [Nat.xor_assoc, Nat.xor_comm (a % 2 ^ w), ← Nat.xor_assoc])
      hp s

/-- Witness for C6 (amended) at a concrete pair of mask lists. -/
theorem C6_homogeneous_bitwise_commutes_witness :
    ([6, 3] : List Nat).Perm [3, 6] ∧
    ((runOps 8 ([6, 3].map GuardOp.bAnd) 5 = runOps 8 ([3, 6].map GuardOp.bAnd) 5 ∧
      runOps 8 ([6, 3].map GuardOp.bOr) 5 = runOps 8 ([3, 6].map GuardOp.bOr) 5 ∧
      runOps 8 ([6, 3].map GuardOp.bXor) 5 = runOps 8 ([3, 6].map GuardOp.bXor) 5) ∧
     runOps 8 [GuardOp.store 1, GuardOp.bAnd 0] 1 ≠
       runOps 8 [GuardOp.bAnd 0, GuardOp.store 1] 1) :=
  ⟨by decide, C6_homogeneous_bitwise_commutes 8 5 [6, 3] [3, 6] (by decide)⟩

/-- C3: for every callable and argument, `get()` on the handle returned by
ldvc_async_execute yields exactly the callable's outcome: its return value
when it returns one, and its propagated failure when it raises one. -/
theorem C3_execute_propagates_outcome (α ε ρ : Type) (f : α → Except ε ρ)
    (a : α) :
    future_get (ldvc_async_execute f a) = some (f a) := by
  unfold ldvc_async_execute packaged_task_run future_get
  cases f a <;> rfl

/-- C1 at a failing input: with timeout 1s and a worker that completes
immediately, the worker's write resolves the promise first, and the timer's
losing `set_exception`, executed unconditionally after the sleep, is NOT a
no-op: it raises `std::future_error(promise_already_satisfied)`, uncaught in
a detached thread (hence fatal to the process), contradicting the claimed
at-most-one discarded resolution. -/
theorem C1_loser_write_raises :
    timeout_worker (fun _ : Unit => (Except.ok 42 : Except Unit Nat)) ()
      ⟨none⟩ = Except.ok ⟨some (Outcome.value ())⟩ ∧
    timeout_timer (⟨some (Outcome.value ())⟩ :
        SharedState (TaskError Unit) Unit) =
      Except.error FutureError.promiseAlreadySatisfied :=
  ⟨rfl, rfl⟩

/-- C2 at a failing input: the worker of ldvc_async_execute_with_timeout
discards the callable's return value (the source calls `promise.set_value()`
with no argument, so the promise carries no payload), hence two callables
returning the different values 1 and 2 produce identical resolved states, and
`get()` yields only the empty completion token — never the callable's return
value. -/
theorem C2_timeout_discards_result :
    timeout_worker (fun _ : Unit => (Except.ok 1 : Except Unit Nat)) ()
        ⟨none⟩ =
      timeout_worker (fun _ : Unit => (Except.ok 2 : Except Unit Nat)) ()
        ⟨none⟩ ∧
    future_get (⟨some (Outcome.value ())⟩ :
        SharedState (TaskError Unit) Unit) = some (Except.ok ()) ∧
    (1 : Nat) ≠ 2 :=
  ⟨rfl, rfl, by decide⟩

/-- C7: for every call to ldvc_async_execute_with_delay with a positive
delay, the spawned thread starts the callable only once the delay has fully
elapsed after submission, `is_ready()` is false immediately after submission,
and `is_ready()` can be true at a time only if at least the delay has elapsed
by then. -/
theorem C7_delay_gates_readiness (s d fd now : Nat) (hd : 0 < d) :
    (ldvc_async_execute_with_delay s d fd).fStart = s + d ∧
    (ldvc_async_execute_with_delay s d fd).is_ready s = false ∧
    ((ldvc_async_execute_with_delay s d fd).is_ready now = true →
      s + d ≤ now) := by
  refine ⟨rfl, ?_, ?_⟩
  · simp only [ldvc_async_execute_with_delay, DelayedHandle.is_ready,
      DelayedHandle.readyAt, DelayedHandle.fStart, decide_eq_false_iff_not]
    omega
  · intro h
    simp only [ldvc_async_execute_with_delay, DelayedHandle.is_ready,
      DelayedHandle.readyAt, DelayedHandle.fStart, decide_eq_true_eq] at h
    omega

/-- Witness for C7 at a concrete 500-tick delay. -/
theorem C7_delay_gates_readiness_witness :
    0 < 500 ∧
    ((ldvc_async_execute_with_delay 0 500 10).fStart = 0 + 500 ∧
     (ldvc_async_execute_with_delay 0 500 10).is_ready 0 = false ∧
     ((ldvc_async_execute_with_delay 0 500 10).is_ready 600 = true →
       0 + 500 ≤ 600)) :=
  ⟨by decide, C7_delay_gates_readiness 0 500 10 600 (by decide)⟩
